import Mathlib

/-!
Verification of the Resume-Hub backend (Express + MongoDB, single server file).

The document store is modelled as two lists of records.  MongoDB field
absence is modelled with `Option` on the two dynamic fields `archived` and
`archivedAt` of a resume; every other field is always present in documents
the application writes.  Identifiers and timestamps are opaque; we use
`String` and `Nat`.  The password hasher (`bcrypt`) is an external
collaborator and is passed in as a function parameter.

Mongo operations used by the handlers are translated as:
  - `findOne filter`            -> `List.find?`
  - `updateOne filter upd`      -> `updateFirst` (first match only;
                                   `matchedCount = 0` is the `none` case)
  - `deleteOne filter`          -> `deleteFirst` (`deletedCount = 0` is `none`)
  - `deleteMany filter`         -> `List.filter` of the non-matching records,
                                   with `List.countP` giving `deletedCount`
  - `sort({k: -1})`             -> `sortDescBy` (descending insertion sort)
-/

/-- A document of the `users` collection (server file lines 51-57, 206-212). -/
structure User where
  _id : String
  name : String
  email : String
  password : String
  role : String
  createdAt : Nat
deriving DecidableEq, Repr

/-- A document of the `resumes` collection (server file lines 102-108).
`archived` / `archivedAt` are the only fields the application ever
`$set`s / `$unset`s, so they are the only `Option`-valued ones:
`none` means the field is absent from the document. -/
structure Resume where
  _id : String
  userId : String
  fileName : String
  description : String
  fileContent : String
  uploadedAt : Nat
  archived : Option Bool
  archivedAt : Option Nat
deriving DecidableEq, Repr

/-- The whole document store: the two collections the server touches. -/
structure Store where
  users : List User
  resumes : List Resume
deriving DecidableEq, Repr

/-- Error responses the handlers produce, with the exact response message. -/
inductive ApiError where
  | NotFound (message : String)
  | Forbidden (message : String)
  | Unauthorized (message : String)
  | Conflict (message : String)
deriving DecidableEq, Repr

/-- A serialized user as returned to callers.  The `password` field is
`Option`-valued so that "the password key is absent from the JSON object"
is expressible as `password = none`. -/
structure UserResponse where
  id : String
  name : String
  email : String
  password : Option String
  role : String
  createdAt : Nat
deriving DecidableEq, Repr

/-- `{ password: _, ...userWithoutPassword }` plus `id: user._id`
(server file lines 61-63 and 87-89). -/
def toUserResponse (u : User) : UserResponse :=
  { id := u._id, name := u.name, email := u.email, password := none,
    role := u.role, createdAt := u.createdAt }

/-- `updateOne`: rewrite the first element satisfying `p` with `f`;
`none` when nothing matches (`matchedCount = 0`). -/
def updateFirst (p : α → Bool) (f : α → α) : List α → Option (List α)
  | [] => none
  | x :: xs => if p x then some (f x :: xs) else (updateFirst p f xs).map (x :: ·)

/-- `deleteOne`: drop the first element satisfying `p`;
`none` when nothing matches (`deletedCount = 0`). -/
def deleteFirst (p : α → Bool) : List α → Option (List α)
  | [] => none
  | x :: xs => if p x then some xs else (deleteFirst p xs).map (x :: ·)

/-- Insert into a list kept sorted by `key` descending. -/
def insertDescBy (key : α → Nat) (x : α) : List α → List α
  | [] => [x]
  | y :: ys => if key y ≤ key x then x :: y :: ys else y :: insertDescBy key x ys

/-- `sort({key: -1})`: sort descending by `key` (insertion sort). -/
def sortDescBy (key : α → Nat) : List α → List α
  | [] => []
  | x :: xs => insertDescBy key x (sortDescBy key xs)

/-- `POST /api/users/register` (server file lines 37-68): reject a duplicate
email, hash the password, insert with role `user`, answer without the
password field. -/
def registerUser (hash : String → String) (now : Nat) (newId : String)
    (s : Store) (name email password : String) :
    Store × Except ApiError UserResponse :=
  match s.users.find? (fun u => u.email == email) with
  | some _ => (s, .error (.Conflict "User with this email already exists"))
  | none =>
    let newUser : User :=
      { _id := newId, name := name, email := email, password := hash password,
        role := "user", createdAt := now }
    ({ s with users := s.users ++ [newUser] }, .ok (toUserResponse newUser))

/-- `POST /api/users/login` (server file lines 71-94): look the email up,
verify the hash, answer 401 with one fixed message on either failure,
answer the user without the password field on success. -/
def authenticate (verify : String → String → Bool) (s : Store)
    (email password : String) : Except ApiError UserResponse :=
  match s.users.find? (fun u => u.email == email) with
  | none => .error (.Unauthorized "Invalid email or password")
  | some user =>
    if verify password user.password then .ok (toUserResponse user)
    else .error (.Unauthorized "Invalid email or password")

/-- `POST /api/resumes` (server file lines 97-116): insert unconditionally;
no check that `userId` names an existing user. -/
def createResume (now : Nat) (newId : String) (s : Store)
    (userId fileName description fileContent : String) : Store × Resume :=
  let newResume : Resume :=
    { _id := newId, userId := userId, fileName := fileName,
      description := description, fileContent := fileContent,
      uploadedAt := now, archived := none, archivedAt := none }
  ({ s with resumes := s.resumes ++ [newResume] }, newResume)

/-- `GET /api/users/:userId/resumes` (server file lines 119-139):
`find({ userId, archived: { $ne: true } }).sort({ uploadedAt: -1 })`. -/
def listActiveResumes (s : Store) (userId : String) : List Resume :=
  sortDescBy (fun r => r.uploadedAt)
    (s.resumes.filter (fun r => r.userId == userId && r.archived != some true))

/-- `GET /api/users/:userId/resumes/archived` (server file lines 400-419):
`find({ userId, archived: true }).sort({ archivedAt: -1 })`.  A missing
`archivedAt` sorts like 0. -/
def listArchivedResumes (s : Store) (userId : String) : List Resume :=
  sortDescBy (fun r => r.archivedAt.getD 0)
    (s.resumes.filter (fun r => r.userId == userId && r.archived == some true))

/-- `GET /api/admin/users` (server file lines 142-160):
`find({ role: { $ne: 'admin' } }).project({ password: 0 })` plus `id: _id`. -/
def adminListUsers (s : Store) : List UserResponse :=
  (s.users.filter (fun u => u.role != "admin")).map toUserResponse

/-- `PUT /api/resumes/:id/archive` (server file lines 272-296):
`updateOne({_id: id}, { $set: { archived: true, archivedAt: now } })`,
404 when `matchedCount` is 0. -/
def archiveResume (now : Nat) (s : Store) (id : String) :
    Store × Except ApiError Unit :=
  match updateFirst (fun r => r._id == id)
      (fun r => { r with archived := some true, archivedAt := some now })
      s.resumes with
  | none => (s, .error (.NotFound "Resume not found"))
  | some rs => ({ s with resumes := rs }, .ok ())

/-- `PUT /api/resumes/:id/restore` (server file lines 422-446):
`updateOne({_id: id}, { $unset: { archived: "", archivedAt: "" } })`,
404 when `matchedCount` is 0. -/
def restoreResume (s : Store) (id : String) : Store × Except ApiError Unit :=
  match updateFirst (fun r => r._id == id)
      (fun r => { r with archived := none, archivedAt := none })
      s.resumes with
  | none => (s, .error (.NotFound "Resume not found"))
  | some rs => ({ s with resumes := rs }, .ok ())

/-- `DELETE /api/resumes/:id` (server file lines 299-315):
`deleteOne({_id: id})`, 404 when `deletedCount` is 0. -/
def permanentDeleteResume (s : Store) (id : String) :
    Store × Except ApiError Unit :=
  match deleteFirst (fun r => r._id == id) s.resumes with
  | none => (s, .error (.NotFound "Resume not found"))
  | some rs => ({ s with resumes := rs }, .ok ())

/-- `DELETE /api/admin/users/:id` (server file lines 364-397).  The handler
performs three separate awaited store calls: `findOne` on the user, then
`deleteMany` on the resumes, then `deleteOne` on the user.  The calls are
not transactional, so `interfere` stands for whatever other requests do to
the store between the resume delete and the user delete; the sequential
behaviour is `interfere = fun s => s` (see `deleteUserCascade`).  On
success the reported value is `deletedCount` of the `deleteMany`. -/
def deleteUserCascadeWith (interfere : Store → Store) (s : Store)
    (id : String) : Store × Except ApiError Nat :=
  match s.users.find? (fun u => u._id == id) with
  | none => (s, .error (.NotFound "User not found"))
  | some user =>
    if user.role == "admin" then
      (s, .error (.Forbidden "Cannot delete admin users"))
    else
      let deletedResumes := s.resumes.countP (fun r => r.userId == id)
      let s1 : Store :=
        { s with resumes := s.resumes.filter (fun r => !(r.userId == id)) }
      let s2 := interfere s1
      match deleteFirst (fun u => u._id == id) s2.users with
      | none => (s2, .error (.NotFound "User not found"))
      | some us => ({ s2 with users := us }, .ok deletedResumes)

/-- The cascade delete as it runs with no interleaved request. -/
def deleteUserCascade (s : Store) (id : String) :
    Store × Except ApiError Nat :=
  deleteUserCascadeWith (fun s => s) s id

/-! ## Helper lemmas on the list-level Mongo operations -/

theorem mem_insertDescBy (key : α → Nat) (x a : α) (l : List α) :
    a ∈ insertDescBy key x l ↔ a = x ∨ a ∈ l := by
  induction l with
  | nil => simp [insertDescBy]
  | cons y ys ih =>
    by_cases h : key y ≤ key x
    · simp [insertDescBy, h]
    · simp [insertDescBy, h, ih]
      tauto

theorem mem_sortDescBy (key : α → Nat) (a : α) (l : List α) :
    a ∈ sortDescBy key l ↔ a ∈ l := by
  induction l with
  | nil => simp [sortDescBy]
  | cons x xs ih => simp [sortDescBy, mem_insertDescBy, ih]

theorem updateFirst_eq_none (p : α → Bool) (f : α → α) (l : List α)
    (h : ∀ x ∈ l, p x = false) : updateFirst p f l = none := by
  induction l with
  | nil => rfl
  | cons x xs ih =>
    have hx : p x = false := h x (List.mem_cons_self x xs)
    simp [updateFirst, hx, ih (fun y hy => h y (List.mem_cons_of_mem x hy))]

theorem deleteFirst_eq_none (p : α → Bool) (l : List α)
    (h : ∀ x ∈ l, p x = false) : deleteFirst p l = none := by
  induction l with
  | nil => rfl
  | cons x xs ih =>
    have hx : p x = false := h x (List.mem_cons_self x xs)
    simp [deleteFirst, hx, ih (fun y hy => h y (List.mem_cons_of_mem x hy))]

theorem updateFirst_of_find? (p : α → Bool) (f : α → α) (l : List α) (r : α)
    (hpf : ∀ x, p (f x) = p x) (h : l.find? p = some r) :
    ∃ l', updateFirst p f l = some l' ∧ l'.find? p = some (f r) := by
  induction l with
  | nil => simp at h
  | cons x xs ih =>
    rw [List.find?_cons] at h
    by_cases hx : p x
    · simp only [hx] at h
      rcases Option.some_inj.mp h with rfl
      refine ⟨f x :: xs, by simp [updateFirst, hx], ?_⟩
      rw [List.find?_cons]
      simp [hpf, hx]
    · simp only [Bool.not_eq_true] at hx
      simp only [hx] at h
      obtain ⟨l', hl', hfind⟩ := ih h
      refine ⟨x :: l', by simp [updateFirst, hx, hl'], ?_⟩
      rw [List.find?_cons]
      simp [hx, hfind]

theorem updateFirst_self_of_find? (p : α → Bool) (f : α → α) (l : List α)
    (r : α) (h : l.find? p = some r) (hfr : f r = r) :
    updateFirst p f l = some l := by
  induction l with
  | nil => simp at h
  | cons x xs ih =>
    rw [List.find?_cons] at h
    by_cases hx : p x
    · simp only [hx] at h
      rcases Option.some_inj.mp h with rfl
      simp [updateFirst, hx, hfr]
    · simp only [Bool.not_eq_true] at hx
      simp only [hx] at h
      simp [updateFirst, hx, ih h]

theorem deleteFirst_of_unique (p : α → Bool) (l : List α) (r : α)
    (h : l.find? p = some r) (huniq : l.countP p ≤ 1) :
    ∃ l', deleteFirst p l = some l' ∧ ∀ x ∈ l', p x = false := by
  induction l with
  | nil => simp at h
  | cons x xs ih =>
    rw [List.find?_cons] at h
    rw [List.countP_cons] at huniq
    by_cases hx : p x
    · have h0 : xs.countP p = 0 := by
        rw [if_pos hx] at huniq
        omega
      refine ⟨xs, by simp [deleteFirst, hx], ?_⟩
      intro y hy
      by_contra hpy
      simp only [Bool.not_eq_false] at hpy
      have : 0 < xs.countP p := List.countP_pos_iff.mpr ⟨y, hy, hpy⟩
      omega
    · simp only [Bool.not_eq_true] at hx
      simp only [hx] at h
      obtain ⟨l', hl', hall⟩ := ih h (by rw [if_neg (by simp [hx])] at huniq; omega)
      refine ⟨x :: l', by simp [deleteFirst, hx, hl'], ?_⟩
      intro y hy
      rcases List.mem_cons.mp hy with rfl | hy
      · exact hx
      · exact hall y hy

theorem find?_eq_of_mem_of_unique (p : α → Bool) (l : List α) (u : α)
    (hm : u ∈ l) (hp : p u = true) (huniq : l.countP p ≤ 1) :
    l.find? p = some u := by
  induction l with
  | nil => simp at hm
  | cons x xs ih =>
    rw [List.countP_cons] at huniq
    rw [List.find?_cons]
    by_cases hx : p x
    · simp only [hx]
      rcases List.mem_cons.mp hm with rfl | hm2
      · rfl
      · exfalso
        have : 0 < xs.countP p := List.countP_pos_iff.mpr ⟨u, hm2, hp⟩
        rw [if_pos hx] at huniq
        omega
    · simp only [Bool.not_eq_true] at hx
      simp only [hx]
      rcases List.mem_cons.mp hm with rfl | hm2
      · simp [hp] at hx
      · exact ih hm2 (by rw [if_neg (by simp [hx])] at huniq; omega)

/-! ## Sample data used by the witness theorems -/

/-- A plain (non-admin) user. -/
def wUser : User :=
  { _id := "U1", name := "Alice", email := "alice@example.com",
    password := "hashedA", role := "user", createdAt := 3 }

/-- The bootstrap admin user. -/
def wAdmin : User :=
  { _id := "A1", name := "Admin User", email := "admin@resumehub.com",
    password := "hashedR", role := "admin", createdAt := 1 }

/-- A never-archived resume owned by `wUser`. -/
def wActive : Resume :=
  { _id := "R1", userId := "U1", fileName := "cv.pdf", description := "cv",
    fileContent := "blob1", uploadedAt := 10, archived := none,
    archivedAt := none }

/-- An archived resume owned by `wUser`. -/
def wArchived : Resume :=
  { _id := "R2", userId := "U1", fileName := "old.pdf", description := "old",
    fileContent := "blob2", uploadedAt := 20, archived := some true,
    archivedAt := some 30 }

/-- A small concrete store exercising both collections. -/
def wStore : Store :=
  { users := [wUser, wAdmin], resumes := [wActive, wArchived] }

/-! ## Claim theorems -/

/-- C1: archiving a resume and then restoring it by the same identifier
succeeds and leaves the record with neither `archived` nor `archivedAt`
present; if the resume had never been archived, the final record equals
the original exactly. -/
theorem archive_then_restore_clears_fields (now : Nat) (s : Store)
    (id : String) (r : Resume)
    (hfind : s.resumes.find? (fun x => x._id == id) = some r) :
    ∃ s1 s2 : Store,
      archiveResume now s id = (s1, .ok ()) ∧
      restoreResume s1 id = (s2, .ok ()) ∧
      s2.resumes.find? (fun x => x._id == id) =
        some { r with archived := none, archivedAt := none } ∧
      (r.archived = none ∧ r.archivedAt = none →
        s2.resumes.find? (fun x => x._id == id) = some r) := by
  obtain ⟨l1, h1, hfind1⟩ := updateFirst_of_find?
    (fun x => x._id == id)
    (fun x => { x with archived := some true, archivedAt := some now })
    s.resumes r (fun x => rfl) hfind
  obtain ⟨l2, h2, hfind2⟩ := updateFirst_of_find?
    (fun x => x._id == id)
    (fun x => { x with archived := none, archivedAt := none })
    l1 _ (fun x => rfl) hfind1
  refine ⟨{ s with resumes := l1 }, { s with resumes := l2 }, ?_, ?_, ?_, ?_⟩
  · simp [archiveResume, h1]
  · simp [restoreResume, h2]
  · exact hfind2
  · rintro ⟨ha, hb⟩
    rw [hfind2]
    cases r
    simp_all

/-- Witness for C1: concrete archive-then-restore round trip on `wStore`. -/
theorem archive_then_restore_clears_fields_witness :
    ∃ s1 s2 : Store,
      archiveResume 99 wStore "R1" = (s1, .ok ()) ∧
      restoreResume s1 "R1" = (s2, .ok ()) ∧
      s2.resumes.find? (fun x => x._id == "R1") =
        some { wActive with archived := none, archivedAt := none } ∧
      (wActive.archived = none ∧ wActive.archivedAt = none →
        s2.resumes.find? (fun x => x._id == "R1") = some wActive) :=
  archive_then_restore_clears_fields 99 wStore "R1" wActive (by decide)

/-- C2: `listActiveResumes` never returns a resume with `archived = true`,
`listArchivedResumes` returns only resumes with `archived = true`, and a
resume with the `archived` field absent is listed as active. -/
theorem list_active_archived_partition (s : Store) (userId : String)
    (r : Resume) :
    (r ∈ listActiveResumes s userId → r.archived ≠ some true) ∧
    (r ∈ listArchivedResumes s userId → r.archived = some true) ∧
    (r ∈ s.resumes → r.userId = userId → r.archived = none →
      r ∈ listActiveResumes s userId) := by
  refine ⟨?_, ?_, ?_⟩
  · intro hmem
    rw [listActiveResumes, mem_sortDescBy] at hmem
    have := (List.mem_filter.mp hmem).2
    simp at this
    intro h
    rw [h] at this
    simp at this
  · intro hmem
    rw [listArchivedResumes, mem_sortDescBy] at hmem
    have := (List.mem_filter.mp hmem).2
    simp at this
    exact this.2
  · intro hmem hid harch
    rw [listActiveResumes, mem_sortDescBy]
    refine List.mem_filter.mpr ⟨hmem, ?_⟩
    simp [hid, harch]

/-- Witness for C2: on `wStore`, the never-archived resume is listed as
active and does not carry `archived = true`, and the archived one carries
`archived = true`. -/
theorem list_active_archived_partition_witness :
    wActive ∈ listActiveResumes wStore "U1" ∧
    wActive.archived ≠ some true ∧
    wArchived.archived = some true :=
  ⟨(list_active_archived_partition wStore "U1" wActive).2.2
      (by decide) rfl rfl,
   (list_active_archived_partition wStore "U1" wActive).1 (by decide),
   (list_active_archived_partition wStore "U1" wArchived).2.1 (by decide)⟩

/-- C3: deleting an existing non-admin user cascades: the call succeeds,
afterwards no user with that identifier and no resume owned by it remains,
and the reported count is the number N of resumes the user owned. -/
theorem deleteUserCascade_removes_user_and_resumes (s : Store) (id : String)
    (u : User) (n : Nat)
    (hu : s.users.find? (fun x => x._id == id) = some u)
    (hrole : u.role ≠ "admin")
    (huniq : s.users.countP (fun x => x._id == id) ≤ 1)
    (hn : s.resumes.countP (fun r => r.userId == id) = n) :
    ∃ s' : Store, deleteUserCascade s id = (s', .ok n) ∧
      (∀ v ∈ s'.users, v._id ≠ id) ∧
      (∀ r ∈ s'.resumes, r.userId ≠ id) := by
  obtain ⟨us, hus, hall⟩ :=
    deleteFirst_of_unique (fun x => x._id == id) s.users u hu huniq
  have hradm : (u.role == "admin") = false := by
    simp only [beq_eq_false_iff_ne, ne_eq]
    exact hrole
  refine ⟨{ users := us,
            resumes := s.resumes.filter (fun r => !(r.userId == id)) },
    ?_, ?_, ?_⟩
  · simp [deleteUserCascade, deleteUserCascadeWith, hu, hradm, hus, hn]
  · intro v hv
    have := hall v hv
    simpa using this
  · intro r hr
    have := (List.mem_filter.mp hr).2
    simpa using this

/-- Witness for C3: deleting `wUser` from `wStore` removes the user and
both owned resumes and reports the count 2. -/
theorem deleteUserCascade_removes_user_and_resumes_witness :
    ∃ s' : Store, deleteUserCascade wStore "U1" = (s', .ok 2) ∧
      (∀ v ∈ s'.users, v._id ≠ "U1") ∧
      (∀ r ∈ s'.resumes, r.userId ≠ "U1") :=
  deleteUserCascade_removes_user_and_resumes wStore "U1" wUser 2
    (by decide) (by decide) (by decide) (by decide)

/-- C4: the cascade delete on a user whose role is `admin` fails with
Forbidden and returns the store verbatim: nothing is deleted. -/
theorem deleteUserCascade_admin_forbidden (s : Store) (id : String) (u : User)
    (hu : s.users.find? (fun x => x._id == id) = some u)
    (hrole : u.role = "admin") :
    deleteUserCascade s id =
      (s, .error (.Forbidden "Cannot delete admin users")) := by
  have hradm : (u.role == "admin") = true := by
    simp [hrole]
  simp [deleteUserCascade, deleteUserCascadeWith, hu, hradm]

/-- Witness for C4: deleting the admin `wAdmin` from `wStore` is refused
and the store is unchanged. -/
theorem deleteUserCascade_admin_forbidden_witness :
    deleteUserCascade wStore "A1" =
      (wStore, .error (.Forbidden "Cannot delete admin users")) :=
  deleteUserCascade_admin_forbidden wStore "A1" wAdmin (by decide) rfl

/-- C5: under the store's unique-email index, login succeeds iff a user
with the email exists whose stored hash verifies against the password;
every failure carries the one fixed Unauthorized message regardless of
which check failed; a success carries no password field. -/
theorem authenticate_spec (verify : String → String → Bool) (s : Store)
    (email password : String)
    (huniq : s.users.countP (fun x => x.email == email) ≤ 1) :
    ((∃ u ∈ s.users, u.email = email ∧ verify password u.password = true) ↔
      ∃ resp, authenticate verify s email password = .ok resp) ∧
    (∀ e, authenticate verify s email password = .error e →
      e = .Unauthorized "Invalid email or password") ∧
    (∀ resp, authenticate verify s email password = .ok resp →
      resp.password = none) := by
  refine ⟨⟨?_, ?_⟩, ?_, ?_⟩
  · rintro ⟨u, hmem, hmail, hver⟩
    have hfind : s.users.find? (fun x => x.email == email) = some u :=
      find?_eq_of_mem_of_unique _ s.users u hmem (by simp [hmail]) huniq
    exact ⟨toUserResponse u, by simp [authenticate, hfind, hver]⟩
  · rintro ⟨resp, hok⟩
    rw [authenticate] at hok
    cases hfind : s.users.find? (fun x => x.email == email) with
    | none => rw [hfind] at hok; cases hok
    | some u =>
      rw [hfind] at hok
      by_cases hver : verify password u.password
      · exact ⟨u, List.mem_of_find?_eq_some hfind,
          by simpa using List.find?_some hfind, hver⟩
      · simp [hver] at hok
  · intro e herr
    rw [authenticate] at herr
    cases hfind : s.users.find? (fun x => x.email == email) with
    | none => rw [hfind] at herr; cases herr; rfl
    | some u =>
      rw [hfind] at herr
      by_cases hver : verify password u.password
      · simp [hver] at herr
      · simp [hver] at herr
        exact herr.symm
  · intro resp hok
    rw [authenticate] at hok
    cases hfind : s.users.find? (fun x => x.email == email) with
    | none => rw [hfind] at hok; cases hok
    | some u =>
      rw [hfind] at hok
      by_cases hver : verify password u.password
      · simp [hver] at hok
        rw [← hok]
        rfl
      · simp [hver] at hok

/-- Witness for C5: on `wStore` with a verifier accepting the stored hash,
login with the known email succeeds; with an always-rejecting verifier it
fails with the fixed Unauthorized message. -/
theorem authenticate_spec_witness :
    (∃ resp, authenticate (fun _ h => h == "hashedA") wStore
      "alice@example.com" "pw" = .ok resp) ∧
    authenticate (fun _ _ => false) wStore "alice@example.com" "pw" =
      .error (.Unauthorized "Invalid email or password") := by
  constructor
  · exact (authenticate_spec (fun _ h => h == "hashedA") wStore
      "alice@example.com" "pw" (by decide)).1.mp
      ⟨wUser, by decide, rfl, by decide⟩
  · cases herr : authenticate (fun _ _ => false) wStore
      "alice@example.com" "pw" with
    | error e =>
      rw [(authenticate_spec (fun _ _ => false) wStore
        "alice@example.com" "pw" (by decide)).2.1 e herr]
    | ok resp =>
      have := (authenticate_spec (fun _ _ => false) wStore
        "alice@example.com" "pw" (by decide)).1.mpr ⟨resp, herr⟩
      obtain ⟨u, _, _, hv⟩ := this
      cases hv

/-- C6: on an identifier matching no resume, archive, restore, and
permanent delete each fail with the NotFound error and the store is
returned unchanged. -/
theorem missing_resume_not_found (now : Nat) (s : Store) (id : String)
    (h : ∀ r ∈ s.resumes, r._id ≠ id) :
    archiveResume now s id = (s, .error (.NotFound "Resume not found")) ∧
    restoreResume s id = (s, .error (.NotFound "Resume not found")) ∧
    permanentDeleteResume s id = (s, .error (.NotFound "Resume not found")) := by
  have hfalse : ∀ r ∈ s.resumes, (fun x => x._id == id) r = false := by
    intro r hr
    simpa using h r hr
  refine ⟨?_, ?_, ?_⟩
  · simp [archiveResume, updateFirst_eq_none _ _ _ hfalse]
  · simp [restoreResume, updateFirst_eq_none _ _ _ hfalse]
  · simp [permanentDeleteResume, deleteFirst_eq_none _ _ hfalse]

/-- Witness for C6: the identifier `"R9"` matches nothing in `wStore`. -/
theorem missing_resume_not_found_witness :
    archiveResume 7 wStore "R9" =
      (wStore, .error (.NotFound "Resume not found")) ∧
    restoreResume wStore "R9" =
      (wStore, .error (.NotFound "Resume not found")) ∧
    permanentDeleteResume wStore "R9" =
      (wStore, .error (.NotFound "Resume not found")) :=
  missing_resume_not_found 7 wStore "R9" (by decide)

/-- C7: restoring a resume that exists and was never archived (both
archive fields absent) succeeds and leaves the store, hence the record,
exactly unchanged. -/
theorem restore_never_archived_noop (s : Store) (id : String) (r : Resume)
    (hfind : s.resumes.find? (fun x => x._id == id) = some r)
    (ha : r.archived = none) (hb : r.archivedAt = none) :
    restoreResume s id = (s, .ok ()) := by
  have hfr : (fun x => { x with archived := none, archivedAt := none }) r
      = r := by
    cases r
    simp_all
  rw [restoreResume, updateFirst_self_of_find? _ _ s.resumes r hfind hfr]

/-- Witness for C7: restoring the never-archived `wActive` leaves `wStore`
unchanged. -/
theorem restore_never_archived_noop_witness :
    restoreResume wStore "R1" = (wStore, .ok ()) :=
  restore_never_archived_noop wStore "R1" wActive (by decide) rfl rfl

/-- C8: no user-facing response carries a password: a successful
registration response, a successful login response, and every entry of
the admin user listing all have the password field absent. -/
theorem responses_never_contain_password (hash : String → String)
    (verify : String → String → Bool) (now : Nat) (newId : String)
    (s : Store) (name email password email2 password2 : String) :
    (∀ resp, (registerUser hash now newId s name email password).2 = .ok resp →
      resp.password = none) ∧
    (∀ resp, authenticate verify s email2 password2 = .ok resp →
      resp.password = none) ∧
    (∀ resp ∈ adminListUsers s, resp.password = none) := by
  refine ⟨?_, ?_, ?_⟩
  · intro resp hok
    rw [registerUser] at hok
    cases hfind : s.users.find? (fun u => u.email == email) with
    | some u => rw [hfind] at hok; cases hok
    | none =>
      rw [hfind] at hok
      simp at hok
      rw [← hok]
      rfl
  · intro resp hok
    rw [authenticate] at hok
    cases hfind : s.users.find? (fun x => x.email == email2) with
    | none => rw [hfind] at hok; cases hok
    | some u =>
      rw [hfind] at hok
      by_cases hver : verify password2 u.password
      · simp [hver] at hok
        rw [← hok]
        rfl
      · simp [hver] at hok
  · intro resp hmem
    rw [adminListUsers] at hmem
    obtain ⟨u, hu, rfl⟩ := List.mem_map.mp hmem
    rfl

/-- Witness for C8: a concrete successful registration, a concrete
successful login, and a concrete admin-listing entry, each password-free. -/
theorem responses_never_contain_password_witness :
    ((registerUser (fun p => String.append p "#") 5 "U2" wStore "Bob"
        "bob@example.com" "pw").2 =
      .ok { id := "U2", name := "Bob", email := "bob@example.com",
            password := none, role := "user", createdAt := 5 }) ∧
    ({ id := "U2", name := "Bob", email := "bob@example.com",
       password := none, role := "user",
       createdAt := 5 } : UserResponse).password = none ∧
    (∃ resp, authenticate (fun _ h => h == "hashedA") wStore
      "alice@example.com" "pw" = .ok resp ∧ resp.password = none) ∧
    toUserResponse wUser ∈ adminListUsers wStore ∧
    (toUserResponse wUser).password = none := by
  refine ⟨rfl, ?_, ?_, by decide, ?_⟩
  · exact (responses_never_contain_password (fun p => String.append p "#")
      (fun _ h => h == "hashedA") 5 "U2" wStore "Bob" "bob@example.com"
      "pw" "alice@example.com" "pw").1 _ rfl
  · exact ⟨toUserResponse wUser,
      rfl,
      (responses_never_contain_password (fun p => String.append p "#")
        (fun _ h => h == "hashedA") 5 "U2" wStore "Bob" "bob@example.com"
        "pw" "alice@example.com" "pw").2.1 _ rfl⟩
  · exact (responses_never_contain_password (fun p => String.append p "#")
      (fun _ h => h == "hashedA") 5 "U2" wStore "Bob" "bob@example.com"
      "pw" "alice@example.com" "pw").2.2 _ (by decide)

/-- C9: the cascade delete removes the owned resumes before attempting the
user delete; if another request removes the user between the two steps,
the operation answers NotFound although the resumes are already gone, so
NotFound from this operation does not imply the store is unchanged. -/
theorem cascade_notFound_with_resumes_deleted (interfere : Store → Store)
    (s : Store) (id : String) (u : User)
    (hu : s.users.find? (fun x => x._id == id) = some u)
    (hrole : u.role ≠ "admin")
    (hgone : ∀ v ∈ (interfere
      { s with resumes := s.resumes.filter (fun r => !(r.userId == id)) }).users,
      v._id ≠ id) :
    deleteUserCascadeWith interfere s id =
      (interfere
        { s with resumes := s.resumes.filter (fun r => !(r.userId == id)) },
       .error (.NotFound "User not found")) ∧
    ∀ r ∈ (s.resumes.filter (fun r => !(r.userId == id))), r.userId ≠ id := by
  have hradm : (u.role == "admin") = false := by
    simp only [beq_eq_false_iff_ne, ne_eq]
    exact hrole
  have hdel : deleteFirst (fun v => v._id == id)
      (interfere
        { s with
          resumes := s.resumes.filter (fun r => !(r.userId == id)) }).users
      = none := by
    apply deleteFirst_eq_none
    intro v hv
    simpa using hgone v hv
  refine ⟨?_, ?_⟩
  · simp [deleteUserCascadeWith, hu, hradm, hdel]
  · intro r hr
    have := (List.mem_filter.mp hr).2
    simpa using this

/-- Witness for C9: on `wStore`, with an interleaved request that empties
the user collection between the two deletes, the cascade on `wUser`
reports NotFound while its final store has lost both of the user's
resumes, so the store is not the initial one. -/
theorem cascade_notFound_with_resumes_deleted_witness :
    deleteUserCascadeWith (fun t => { t with users := [] }) wStore "U1" =
      ({ users := [], resumes := [] }, .error (.NotFound "User not found")) ∧
    ({ users := [], resumes := [] } : Store) ≠ wStore := by
  have h := cascade_notFound_with_resumes_deleted
    (fun t => { t with users := [] }) wStore "U1" wUser
    (by decide) (by decide) (by intro v hv; simp at hv)
  refine ⟨?_, by decide⟩
  rw [h.1]
  rfl

/-- C10: resume creation checks nothing about the owner: even when no user
has the given identifier, the create succeeds, the stored record carries
that identifier as owner, and the reference stays dangling. -/
theorem createResume_allows_dangling_owner (now : Nat) (newId : String)
    (s : Store) (userId fileName description fileContent : String)
    (hdangling : ∀ u ∈ s.users, u._id ≠ userId) :
    ((createResume now newId s userId fileName description fileContent).2 ∈
      (createResume now newId s userId fileName description
        fileContent).1.resumes) ∧
    (createResume now newId s userId fileName description
      fileContent).2.userId = userId ∧
    ∀ u ∈ (createResume now newId s userId fileName description
      fileContent).1.users, u._id ≠ userId := by
  refine ⟨?_, rfl, ?_⟩
  · simp [createResume]
  · intro u hu
    exact hdangling u hu

/-- Witness for C10: creating a resume owned by the nonexistent user
`"GHOST"` succeeds on `wStore`. -/
theorem createResume_allows_dangling_owner_witness :
    ((createResume 50 "R3" wStore "GHOST" "f.pdf" "d" "blob").2 ∈
      (createResume 50 "R3" wStore "GHOST" "f.pdf" "d" "blob").1.resumes) ∧
    (createResume 50 "R3" wStore "GHOST" "f.pdf" "d" "blob").2.userId =
      "GHOST" ∧
    ∀ u ∈ (createResume 50 "R3" wStore "GHOST" "f.pdf" "d" "blob").1.users,
      u._id ≠ "GHOST" :=
  createResume_allows_dangling_owner 50 "R3" wStore "GHOST" "f.pdf" "d"
    "blob" (by decide)
